import Mathlib

/-!
Verification of the Clustering & Topic-Hierarchy Engine.

Shallow embedding of `apps/workers/src/advanced_clustering.py` and
`apps/workers/src/cluster_worker.py`.

Modelling conventions:
* Python floats coming out of external numeric libraries (inertia values,
  silhouette scores, LDA topic distributions, centroid coordinates) are
  modelled as rationals (`ℚ`); the engine's own logic only compares, averages
  and divides them, which `ℚ` represents exactly.  Note that in `ℚ`,
  `x / 0 = 0`, which coincides with the code's explicit `total_docs > 0`
  guard in the coherence computation.
* A Python `try/except` around an external numeric call is modelled by the
  call returning `Except String α`; the handler becomes a `match`.
* `uuid.uuid4()` id generation is modelled by an injected id supply
  (`Nat`-valued function); no theorem below relies on its randomness.
* In-place mutation of the shared keyword dictionaries is modelled by
  explicit state passing: functions return the updated keyword list.
-/

namespace SeoClustering

/-- Helper for `argmaxIdx`: `argmaxGo best bv i xs` scans `xs` (whose first
element sits at position `i`) keeping the best index `best` with value `bv`.
Ties keep the earlier index, as `np.argmax` does. -/
def argmaxGo : Nat → ℚ → Nat → List ℚ → Nat
  | best, _, _, [] => best
  | best, bv, i, y :: rest =>
    if bv < y then argmaxGo i y (i + 1) rest else argmaxGo best bv (i + 1) rest

/-- Index of the first maximal element of a list (`np.argmax`); `0` on `[]`
(where NumPy would raise — callers model that separately). -/
def argmaxIdx : List ℚ → Nat
  | [] => 0
  | x :: rest => argmaxGo 0 x 1 rest

/-- The `np.diff` step: successive differences, `out[i] = xs[i+1] - xs[i]`. -/
def diffQ (xs : List ℚ) : List ℚ :=
  (xs.zip xs.tail).map (fun p => p.2 - p.1)

/-- Model of `_find_elbow_point`: second derivative of the inertia curve, the index of
its maximum plus 2, looked up in `k_range` (last element when out of range).
`np.argmax` on an empty array raises; the function's own handler then returns
the fallback 5. -/
def findElbowPoint (kRange : List Nat) (inertias : List ℚ) : Nat :=
  let secondDerivative := diffQ (diffQ inertias)
  if secondDerivative.isEmpty then 5
  else
    let elbowIdx := argmaxIdx secondDerivative + 2
    if elbowIdx < kRange.length then kRange.getD elbowIdx 0 else kRange.getLastD 0

/-- The candidate cluster counts `range(2, max_clusters + 1)`. -/
def kCandidates (maxClusters : Nat) : List Nat :=
  List.range' 2 (maxClusters - 1)

/-- The per-`k` loop of `_estimate_optimal_clusters`: run KMeans at each
candidate `k`, collecting `kmeans.inertia_` and the silhouette score.  The two
numeric calls are external (`sklearn`) and may raise, which the `Except`
results model; the first failure aborts the loop. -/
def collectScores (inertia sil : Nat → Except String ℚ) :
    List Nat → Except String (List ℚ × List ℚ)
  | [] => .ok ([], [])
  | k :: ks =>
    match inertia k with
    | .error e => .error e
    | .ok iv =>
      match sil k with
      | .error e => .error e
      | .ok sv =>
        match collectScores inertia sil ks with
        | .error e => .error e
        | .ok (is, ss) => .ok (iv :: is, sv :: ss)

/-- Model of `_estimate_optimal_clusters`: candidate range `[2, min(20, N // 5)]`;
returns 2 outright when the range is infeasible; otherwise the smaller of the
elbow candidate and the best-silhouette candidate; 5 when a numeric call in
the loop raises (the surrounding `except` branch). -/
def estimateOptimalClusters (n : Nat) (inertia sil : Nat → Except String ℚ) : Nat :=
  let maxClusters := min 20 (n / 5)
  if maxClusters < 2 then 2
  else
    match collectScores inertia sil (kCandidates maxClusters) with
    | .error _ => 5
    | .ok (inertias, silScores) =>
      let elbowK := findElbowPoint (kCandidates maxClusters) inertias
      let bestSilK := (kCandidates maxClusters).getD (argmaxIdx silScores) 0
      min elbowK bestSilK

/-- Whether `s` starts with `p` (character lists). -/
def leadingMatch : List Char → List Char → Bool
  | [], _ => true
  | _ :: _, [] => false
  | a :: as, b :: bs => a == b && leadingMatch as bs

/-- Whether `p` occurs contiguously inside `s` (Python's `in` on
strings). -/
def occursIn (p : List Char) : List Char → Bool
  | [] => leadingMatch p []
  | c :: rest => leadingMatch p (c :: rest) || occursIn p rest

/-- Python's `word in doc.lower()` membership test from
`_calculate_topic_coherence`. -/
def containsWord (doc w : String) : Bool :=
  occursIn w.toList doc.toLower.toList

/-- The fraction of documents containing both words
(`co_occurrences / total_docs`); `ℚ` gives `0` for an empty document list,
matching the code's `total_docs > 0` guard. -/
def coOccurrenceRate (w1 w2 : String) (documents : List String) : ℚ :=
  ((documents.filter (fun d => containsWord d w1 && containsWord d w2)).length : ℚ) /
    (documents.length : ℚ)

/-- The nested loop of `_calculate_topic_coherence`: one rate per index pair
`i < j` of the topic-word list, in loop order. -/
def pairRates (topicWords documents : List String) : List ℚ :=
  match topicWords with
  | [] => []
  | w :: ws => ws.map (fun w2 => coOccurrenceRate w w2 documents) ++ pairRates ws documents

/-- Model of `_calculate_topic_coherence`: average co-occurrence rate over all pairs,
0 when there are no pairs. -/
def calculateTopicCoherence (topicWords documents : List String) : ℚ :=
  let rates := pairRates topicWords documents
  if 0 < rates.length then rates.sum / (rates.length : ℚ) else 0

/-- All unordered pairs of (positionally) distinct elements, each once. -/
def distinctPairs : List α → List (α × α)
  | [] => []
  | x :: xs => xs.map (fun y => (x, y)) ++ distinctPairs xs

/-- The coherence formula in the spec's words: the mean, over all unordered
pairs of distinct top terms, of the fraction of documents containing both
terms; 0 when there are fewer than 2 terms (no pairs). -/
def specTopicCoherence (topicWords documents : List String) : ℚ :=
  let pairs := distinctPairs topicWords
  if pairs.isEmpty then 0
  else (pairs.map (fun p => coOccurrenceRate p.1 p.2 documents)).sum / (pairs.length : ℚ)

/-- Mean of a list of rationals (`np.mean`; callers ensure nonemptiness). -/
def listMeanQ (xs : List ℚ) : ℚ := xs.sum / (xs.length : ℚ)

/-- Model of `_generate_topic_model`'s `coherence_score`: the mean of the per-topic
coherences, each computed by `_calculate_topic_coherence` on that topic's top
words against all keyword texts. -/
def modelCoherenceScore (topicTopWords : List (List String)) (documents : List String) : ℚ :=
  listMeanQ (topicTopWords.map (fun ws => calculateTopicCoherence ws documents))

/-- The three clustering procedures `perform_advanced_clustering` dispatches
to. -/
inductive ClusteringMethod where
  | hierarchical
  | topicModeling
  | hybrid
deriving DecidableEq, Repr

/-- The strategy dispatch of `perform_advanced_clustering`: the `if/elif`
chain over the `method` string; any other name raises
`ValueError(f"Unsupported clustering method: {method}")`. -/
def dispatchMethod (method : String) : Except String ClusteringMethod :=
  if method = "hierarchical" then .ok .hierarchical
  else if method = "topic_modeling" then .ok .topicModeling
  else if method = "hybrid" then .ok .hybrid
  else .error ("Unsupported clustering method: " ++ method)

/-- A keyword dict as the engine sees it: the `keyword` text, the optional
auxiliary attributes, an optional precomputed embedding, and the slots the
engine writes back (`cluster_id`, `cluster_label`, `topic_id`). -/
structure KeywordRecord where
  keyword : String
  searchVolume : Option ℚ := none
  difficulty : Option ℚ := none
  intent : Option String := none
  embedding : Option (List ℚ) := none
  clusterId : Option Nat := none
  clusterLabel : Option String := none
  topicId : Option Nat := none
deriving DecidableEq, Repr, Inhabited

/-- A sub-topic entry attached by `_refine_cluster_with_topics`
(`{id, label, keywords, topic_words}`). -/
structure SubTopic where
  id : Nat
  label : String
  keywords : List String
  topicWords : List String
deriving DecidableEq, Repr, Inhabited

/-- A cluster dict of `advanced_clustering.py` (the fields the claims touch;
`density` and `created_at`, which no claim mentions, are left out — density
is a float `sqrt` computation never read back by the engine). -/
structure ClusterObj where
  id : Nat
  label : String
  keywords : List String
  keywordData : List KeywordRecord
  centroid : List ℚ
  size : Nat
  topicId : Option Nat := none
  topicWords : List String := []
  topicDistribution : List ℚ := []
  subTopics : List SubTopic := []
deriving DecidableEq, Repr, Inhabited

/-- Vector dot product (`np.dot` on two equal-length vectors). -/
def dotQ (v w : List ℚ) : ℚ :=
  ((v.zip w).map (fun p => p.1 * p.2)).sum

/-- Elementwise vector sum (helper for `np.mean(·, axis=0)`). -/
def vecAdd (v w : List ℚ) : List ℚ :=
  (v.zip w).map (fun p => p.1 + p.2)

/-- Elementwise mean of equal-length vectors (`np.mean(vs, axis=0)`). -/
def vecMean (vs : List (List ℚ)) : List ℚ :=
  match vs with
  | [] => []
  | v :: rest => (rest.foldl vecAdd v).map (fun x => x / (vs.length : ℚ))

/-- Python's `str.split()` on whitespace (the keyword texts are
space-separated). -/
def splitWords (s : String) : List String :=
  (s.splitOn " ").filter (fun w => w ≠ "")

/-- One `word_freq[word] += 1` step on an insertion-ordered count table
(Python dicts preserve insertion order). -/
def bumpWord (tbl : List (String × Nat)) (w : String) : List (String × Nat) :=
  if tbl.any (fun p => p.1 = w) then
    tbl.map (fun p => if p.1 = w then (p.1, p.2 + 1) else p)
  else tbl ++ [(w, 1)]

/-- Stable sort of a count table by descending count (Python's stable
`sorted(..., key=count, reverse=True)`). -/
def sortByCountDesc (tbl : List (String × Nat)) : List (String × Nat) :=
  tbl.insertionSort (fun p q => q.2 ≤ p.2)

/-- Model of `_generate_cluster_label` in `advanced_clustering.py`: lower-case the
member keywords, count whitespace tokens longer than 3 characters, and join
the 3 most frequent; fall back to `"Cluster {n} keywords"`. -/
def generateClusterLabel (clusterKeywords : List KeywordRecord) : String :=
  let texts := clusterKeywords.map (fun kw => kw.keyword.toLower)
  let words := (texts.map splitWords).flatten.filter (fun w => w.length > 3)
  let freq := words.foldl bumpWord []
  let common := (sortByCountDesc freq).take 3
  if common.isEmpty then
    "Cluster " ++ toString clusterKeywords.length ++ " keywords"
  else
    "Cluster: " ++ String.intercalate ", " (common.map (fun p => p.1))

/-- Ascending sorted distinct values (`np.unique` on the label array). -/
def sortedDedup (l : List Int) : List Int :=
  (l.dedup).insertionSort (fun a b => a ≤ b)

/-- Ascending sorted distinct `Nat` topic labels (`np.unique`). -/
def sortedDedupNat (l : List Nat) : List Nat :=
  (l.dedup).insertionSort (fun a b => a ≤ b)

/-- The keywords at positions whose entry of the label array equals `l`
(`np.where(cluster_labels == label)` followed by indexing). -/
def membersWithLabel (kws : List KeywordRecord) (labels : List Int) (l : Int) :
    List KeywordRecord :=
  ((kws.zip labels).filter (fun p => p.2 = l)).map (fun p => p.1)

/-- The embedding rows at positions whose label equals `l`. -/
def embsWithLabel (embeddings : List (List ℚ)) (labels : List Int) (l : Int) :
    List (List ℚ) :=
  ((embeddings.zip labels).filter (fun p => p.2 = l)).map (fun p => p.1)

/-- The write-back loop of `_create_cluster_objects`: set `cluster_id` and
`cluster_label` on every keyword whose label is `l`, leaving the rest (and
every other field) alone. -/
def applyAssignment : List KeywordRecord → List Int → Int → Nat → String →
    List KeywordRecord
  | [], _, _, _, _ => []
  | kws, [], _, _, _ => kws
  | kw :: kws, lab :: labs, l, cid, clab =>
    (if lab = l then { kw with clusterId := some cid, clusterLabel := some clab }
     else kw) :: applyAssignment kws labs l cid clab

/-- The per-label loop body of `_create_cluster_objects`, iterating the
sorted distinct non-noise labels with the id supply index. -/
def createClusterObjectsGo (labels : List Int) (embeddings : List (List ℚ))
    (newIds : Nat → Nat) :
    List Int → Nat → List KeywordRecord → List ClusterObj × List KeywordRecord
  | [], _, kws => ([], kws)
  | l :: ls, i, kws =>
    let members := membersWithLabel kws labels l
    let memberEmbs := embsWithLabel embeddings labels l
    let clab := generateClusterLabel members
    let cid := newIds i
    let cluster : ClusterObj :=
      { id := cid, label := clab,
        keywords := members.map (fun kw => kw.keyword),
        keywordData := members.map (fun kw =>
          { kw with clusterId := some cid, clusterLabel := some clab }),
        centroid := vecMean memberEmbs,
        size := members.length }
    let kws' := applyAssignment kws labels l cid clab
    let res := createClusterObjectsGo labels embeddings newIds ls (i + 1) kws'
    (cluster :: res.1, res.2)

/-- Model of `_create_cluster_objects`: one cluster per distinct non-noise label
(noise label `-1` skipped), each cluster carrying centroid, generated label
and member list, with `cluster_id`/`cluster_label` written back onto the
member keywords.  (`keyword_data` holds the members as mutated, since the
Python dicts are shared references.) -/
def createClusterObjects (kws : List KeywordRecord) (labels : List Int)
    (embeddings : List (List ℚ)) (newIds : Nat → Nat) :
    List ClusterObj × List KeywordRecord :=
  createClusterObjectsGo labels embeddings newIds
    ((sortedDedup labels).filter (fun l => l ≠ -1)) 0 kws

/-- Keywords at positions whose `Nat` topic label equals `l`. -/
def membersWithLabelNat (kws : List KeywordRecord) (labels : List Nat) (l : Nat) :
    List KeywordRecord :=
  ((kws.zip labels).filter (fun p => p.2 = l)).map (fun p => p.1)

/-- Topic-distribution rows at positions whose label equals `l`. -/
def distsWithLabel (dists : List (List ℚ)) (labels : List Nat) (l : Nat) :
    List (List ℚ) :=
  ((dists.zip labels).filter (fun p => p.2 = l)).map (fun p => p.1)

/-- The topic cluster's label string
`f"Topic {label + 1}: {', '.join(top_words[:3])}"`. -/
def topicLabelString (l : Nat) (tws : List String) : String :=
  "Topic " ++ toString (l + 1) ++ ": " ++ String.intercalate ", " (tws.take 3)

/-- The write-back loop of `_create_topic_clusters`: sets `cluster_id`,
`cluster_label` and `topic_id` on every keyword carrying topic label `l`. -/
def applyTopicAssignment : List KeywordRecord → List Nat → Nat → Nat → String →
    List KeywordRecord
  | [], _, _, _, _ => []
  | kws, [], _, _, _ => kws
  | kw :: kws, lab :: labs, l, cid, clab =>
    (if lab = l then
      { kw with clusterId := some cid, clusterLabel := some clab, topicId := some lab }
     else kw) :: applyTopicAssignment kws labs l cid clab

/-- Per-label loop of `_create_topic_clusters` over the sorted distinct topic
labels. -/
def createTopicClustersGo (labels : List Nat) (dists : List (List ℚ))
    (topWords : Nat → List String) (newIds : Nat → Nat) :
    List Nat → Nat → List KeywordRecord → List ClusterObj × List KeywordRecord
  | [], _, kws => ([], kws)
  | l :: ls, i, kws =>
    let members := membersWithLabelNat kws labels l
    let tws := topWords l
    let cid := newIds i
    let clab := topicLabelString l tws
    let cluster : ClusterObj :=
      { id := cid, label := clab,
        keywords := members.map (fun kw => kw.keyword),
        keywordData := members.map (fun kw =>
          { kw with clusterId := some cid, clusterLabel := some clab,
                    topicId := some l }),
        centroid := [],
        size := members.length,
        topicId := some l,
        topicWords := tws,
        topicDistribution := vecMean (distsWithLabel dists labels l) }
    let kws' := applyTopicAssignment kws labels l cid clab
    let res := createTopicClustersGo labels dists topWords newIds ls (i + 1) kws'
    (cluster :: res.1, res.2)

/-- Model of `_create_topic_clusters`: one cluster per distinct topic label (every
keyword has one, argmax never yields noise), each carrying the topic's top
words (an external-oracle lookup of `topic_model.components_`) and the mean
topic distribution of its members; writes `cluster_id`, `cluster_label` and
`topic_id` back onto the member keywords. -/
def createTopicClusters (kws : List KeywordRecord) (labels : List Nat)
    (dists : List (List ℚ)) (topWords : Nat → List String) (newIds : Nat → Nat) :
    List ClusterObj × List KeywordRecord :=
  createTopicClustersGo labels dists topWords newIds (sortedDedupNat labels) 0 kws

/-- Model of `_topic_modeling_clustering` after the external TF-IDF + LDA/NMF
decomposition (whose output is the `dists` rows): assign each keyword to its
argmax topic and build the topic clusters. -/
def topicModelingClustering (kws : List KeywordRecord) (dists : List (List ℚ))
    (topWords : Nat → List String) (newIds : Nat → Nat) :
    List ClusterObj × List KeywordRecord :=
  createTopicClusters kws (dists.map argmaxIdx) dists topWords newIds

/-- The keyword fields the engine never writes: everything except
`cluster_id`, `cluster_label` and `topic_id`. -/
def unwrittenFieldsEq (a b : KeywordRecord) : Prop :=
  a.keyword = b.keyword ∧ a.searchVolume = b.searchVolume ∧
  a.difficulty = b.difficulty ∧ a.intent = b.intent ∧ a.embedding = b.embedding

/-- Frame of the topic assigner: all fields but `cluster_id`,
`cluster_label`, `topic_id` are untouched, position by position. -/
def onlyTopicFieldsWritten (kws out : List KeywordRecord) : Prop :=
  out.length = kws.length ∧
  ∀ j, unwrittenFieldsEq (out.getD j default) (kws.getD j default)

/-- Frame of the hierarchical assigner: additionally `topic_id` is
untouched. -/
def onlyClusterFieldsWritten (kws out : List KeywordRecord) : Prop :=
  onlyTopicFieldsWritten kws out ∧
  ∀ j, (out.getD j default).topicId = (kws.getD j default).topicId

/-- Inner loop of the greedy grouping passes: scan all `(index, item)` pairs
and absorb every not-yet-used item whose similarity to seed `i` exceeds the
threshold, marking it used. -/
def collectSimilar (sim : Nat → Nat → ℚ) (θ : ℚ) (i : Nat) :
    List (Nat × α) → List Nat → List α × List Nat
  | [], used => ([], used)
  | (j, x) :: rest, used =>
    if j ∉ used ∧ sim i j > θ then
      let res := collectSimilar sim θ i rest (j :: used)
      (x :: res.1, res.2)
    else collectSimilar sim θ i rest used

/-- Outer loop of the greedy grouping passes: each unused item seeds a group
and absorbs similar unused items (first-match-wins, original order). -/
def greedyPass (sim : Nat → Nat → ℚ) (θ : ℚ) (allPairs : List (Nat × α)) :
    List (Nat × α) → List Nat → List (List α)
  | [], _ => []
  | (i, x) :: rest, used =>
    if i ∈ used then greedyPass sim θ allPairs rest used
    else
      let res := collectSimilar sim θ i allPairs (i :: used)
      (x :: res.1) :: greedyPass sim θ allPairs rest res.2

/-- Pairwise centroid similarity (`np.dot(centroids, centroids.T)`). -/
def clusterSim (clusters : List ClusterObj) (i j : Nat) : ℚ :=
  dotQ ((clusters.getD i default).centroid) ((clusters.getD j default).centroid)

/-- The first grouping pass of `_group_similar_clusters` (threshold 0.7). -/
def groupSimilarClustersOnce (clusters : List ClusterObj) : List (List ClusterObj) :=
  greedyPass (clusterSim clusters) (7 / 10) clusters.enum clusters.enum []

/-- A group's centroid: elementwise mean of its members' centroids. -/
def groupCentroid (g : List ClusterObj) : List ℚ :=
  vecMean (g.map (fun c => c.centroid))

/-- Pairwise similarity of group centroids in `_group_cluster_groups`. -/
def groupSim (groups : List (List ClusterObj)) (i j : Nat) : ℚ :=
  dotQ (groupCentroid (groups.getD i [])) (groupCentroid (groups.getD j []))

/-- Model of `_group_cluster_groups`: no next level for at most one group; otherwise a
greedy merge pass at threshold 0.6 (each produced group is the concatenation
of the seed group and the groups it absorbed), returned only if it reduced
the group count, else no next level. -/
def groupClusterGroups (groups : List (List ClusterObj)) : List (List ClusterObj) :=
  if groups.length ≤ 1 then []
  else
    let newGroups :=
      (greedyPass (groupSim groups) (3 / 5) groups.enum groups.enum []).map List.flatten
    if newGroups.length < groups.length then newGroups else []

/-- Each pass of the level loop strictly shrinks the group list (stopping is
returning `[]`). -/
theorem groupClusterGroups_length_lt (groups : List (List ClusterObj))
    (h : groups ≠ []) :
    (groupClusterGroups groups).length < groups.length := by
  have hpos : 0 < groups.length := List.length_pos.mpr h
  unfold groupClusterGroups
  by_cases h1 : groups.length ≤ 1
  · rw [if_pos h1]
    simpa using hpos
  · rw [if_neg h1]
    by_cases h2 :
        ((greedyPass (groupSim groups) (3 / 5) groups.enum groups.enum []).map
          List.flatten).length < groups.length
    · rw [if_pos h2]
      exact h2
    · rw [if_neg h2]
      simpa using hpos

/-- The `while current_level:` loop of `_group_similar_clusters`: stack the
current level, then regroup for the next, until a pass yields nothing. -/
def buildLevels (current : List (List ClusterObj)) : List (List (List ClusterObj)) :=
  if h : current = [] then []
  else current :: buildLevels (groupClusterGroups current)
termination_by current.length
decreasing_by exact groupClusterGroups_length_lt current h

/-- The same loop as a bounded iteration with explicit fuel. -/
def buildLevelsFuel : Nat → List (List ClusterObj) → List (List (List ClusterObj))
  | 0, _ => []
  | fuel + 1, current =>
    if current = [] then []
    else current :: buildLevelsFuel fuel (groupClusterGroups current)

/-- Model of `_group_similar_clusters`: the initial greedy pass (threshold 0.7), then
the level-stacking loop. -/
def groupSimilarClusters (clusters : List ClusterObj) : List (List (List ClusterObj)) :=
  buildLevels (groupSimilarClustersOnce clusters)

/-- A concrete cluster record used by the closed instances below. -/
def sampleCluster : ClusterObj :=
  { id := 0, label := "A", keywords := ["x"], keywordData := [],
    centroid := [1], size := 1 }

/-- Identifiers in the hierarchy dict: the synthetic `"root"` key, the
generated `"level_{level}_{n}"` keys (all distinct string formats in the
source, modelled structurally), and cluster UUIDs appearing as children. -/
inductive NodeId where
  | root
  | group (level : Nat) (idx : Nat)
  | clusterRef (cid : Nat)
deriving DecidableEq, Repr, Inhabited

/-- One entry of the hierarchy dict built by `_build_cluster_hierarchy`. -/
structure HierarchyNode where
  id : NodeId
  label : String
  children : List NodeId
  level : Nat
  size : Nat
deriving DecidableEq, Repr, Inhabited

/-- Total of the cluster sizes (`sum(cluster['size'] for cluster in clusters)`). -/
def sumSizes (clusters : List ClusterObj) : Nat :=
  (clusters.map (fun c => c.size)).sum

/-- The inner loop over one level's groups: one node per group, ids numbered
by the running dict size. -/
def mkGroupNodes (level : Nat) : Nat → List (List ClusterObj) → List HierarchyNode
  | _, [] => []
  | count, g :: gs =>
    { id := .group level count, label := "Group " ++ toString count,
      children := g.map (fun c => NodeId.clusterRef c.id),
      level := level, size := sumSizes g } :: mkGroupNodes level (count + 1) gs

/-- The outer loop `for level, group in enumerate(cluster_groups, 1)`. -/
def mkLevelNodes : Nat → Nat → List (List (List ClusterObj)) → List HierarchyNode
  | _, _, [] => []
  | level, count, lvl :: rest =>
    mkGroupNodes level count lvl ++ mkLevelNodes (level + 1) (count + lvl.length) rest

/-- Model of `_build_cluster_hierarchy`: the root entry at level 0 whose size is the
sum of all cluster sizes, followed by the group nodes of every level; every
group node's id is appended to the root's children list as it is created. -/
def buildClusterHierarchy (clusters : List ClusterObj) : List HierarchyNode :=
  let nodes := mkLevelNodes 1 1 (groupSimilarClusters clusters)
  { id := .root, label := "All Keywords",
    children := nodes.map (fun nd => nd.id),
    level := 0, size := sumSizes clusters } :: nodes

/-- The running-counter component of a generated group id. -/
def nodeIdx : NodeId → Nat
  | .group _ k => k
  | _ => 0

/-- How many times `i` occurs as a child across all hierarchy nodes. -/
def parentCount (hier : List HierarchyNode) (i : NodeId) : Nat :=
  (hier.map (fun nd => nd.children.count i)).sum

/-- Model of `_refine_cluster_with_topics`: copy the semantic cluster and attach the
topic clusters as `sub_topics` entries `{id, label, keywords, topic_words}`;
its own `try/except` returns the original cluster if the merge raises
(`mergeFails` models that). -/
def refineClusterWithTopics (cluster : ClusterObj) (topicClusters : List ClusterObj)
    (mergeFails : Bool) : ClusterObj :=
  if mergeFails then cluster
  else
    { cluster with subTopics := topicClusters.map (fun tc =>
        { id := tc.id, label := tc.label, keywords := tc.keywords,
          topicWords := tc.topicWords }) }

/-- In-place mutation of the member dicts seen through the shared global
list: the records with the cluster's id are replaced positionally by their
updated versions. -/
def mergeMembers (cid : Nat) : List KeywordRecord → List KeywordRecord →
    List KeywordRecord
  | [], _ => []
  | kw :: rest, upd =>
    if kw.clusterId = some cid then
      match upd with
      | [] => kw :: mergeMembers cid rest []
      | u :: us => u :: mergeMembers cid rest us
    else kw :: mergeMembers cid rest upd

/-- One iteration of `_hybrid_clustering`'s loop: gather the cluster's
members from the shared keyword list; clusters of more than 5 members get the
Topic Modeler run on their texts with `n_topics = min(3, size // 2)` (the
external embedding + LDA decomposition is the `decomp` oracle, which may
raise) and the result attached via `_refine_cluster_with_topics`; smaller
clusters pass through untouched. -/
def hybridRefineStep (kws : List KeywordRecord) (c : ClusterObj)
    (decomp : List String → Nat → Except String (List (List ℚ)))
    (topWords : Nat → List String) (newIds : Nat → Nat)
    (mergeFails : ClusterObj → Bool) :
    Except String (ClusterObj × List KeywordRecord) :=
  let members := kws.filter (fun kw => kw.clusterId = some c.id)
  if 5 < members.length then
    match decomp (members.map (fun kw => kw.keyword)) (min 3 (members.length / 2)) with
    | .error e => .error e
    | .ok dists =>
      let res := topicModelingClustering members dists topWords newIds
      .ok (refineClusterWithTopics c res.1 (mergeFails c), mergeMembers c.id kws res.2)
  else .ok (c, kws)

/-- The loop of `_hybrid_clustering` over the semantic clusters.  There is no
per-cluster exception handler: an error from the decomposition of any
cluster propagates and aborts the whole batch. -/
def hybridClustering (decomp : List String → Nat → Except String (List (List ℚ)))
    (topWords : Nat → List String) (newIds : Nat → Nat)
    (mergeFails : ClusterObj → Bool) :
    List ClusterObj → List KeywordRecord →
    Except String (List ClusterObj × List KeywordRecord)
  | [], kws => .ok ([], kws)
  | c :: cs, kws =>
    match hybridRefineStep kws c decomp topWords newIds mergeFails with
    | .error e => .error e
    | .ok p =>
      match hybridClustering decomp topWords newIds mergeFails cs p.2 with
      | .error e => .error e
      | .ok q => .ok (p.1 :: q.1, q.2)

/-- The 10-member cluster of the counterexample. -/
def sampleHybridCluster : ClusterObj :=
  { id := 1, label := "B", keywords := [], keywordData := [],
    centroid := [1], size := 10 }

/-- Ten keyword records assigned to cluster 1. -/
def sampleHybridKeywords : List KeywordRecord :=
  List.replicate 10 { keyword := "k", clusterId := some 1 }

/-- First cluster of the abort counterexample: its six members carry the
keyword text `"a"`. -/
def abortClusterA : ClusterObj :=
  { id := 1, label := "A", keywords := [], keywordData := [],
    centroid := [1], size := 6 }

/-- Second (sibling) cluster: six members with keyword text `"b"`. -/
def abortClusterB : ClusterObj :=
  { id := 2, label := "B", keywords := [], keywordData := [],
    centroid := [1], size := 6 }

/-- Twelve records: six in cluster 1 (text `"a"`), six in cluster 2
(text `"b"`). -/
def abortKeywords : List KeywordRecord :=
  List.replicate 6 { keyword := "a", clusterId := some 1 } ++
    List.replicate 6 { keyword := "b", clusterId := some 2 }

/-- A decomposition oracle that fails exactly on cluster 1's texts and
succeeds on cluster 2's. -/
def abortDecomp (ts : List String) (_ : Nat) : Except String (List (List ℚ)) :=
  if ts.getD 0 "" = "a" then Except.error "numerical"
  else Except.ok (List.replicate 6 [1, 0, 0])

/-- The `metadata` dict of `cluster_worker.py`. -/
structure ClusterMetadata where
  totalClusters : Nat
  avgClusterSize : ℚ
  silhouetteScore : ℚ
deriving DecidableEq, Repr, Inhabited

/-- Per-cluster metrics of `ClusterWorker._calculate_cluster_metrics`. -/
structure CWMetrics where
  avgSearchVolume : ℚ
  avgDifficulty : ℚ
  totalKeywords : Nat
  intentDistribution : List (String × Nat)
deriving DecidableEq, Repr, Inhabited

/-- A cluster object of `ClusterWorker._create_cluster_objects`. -/
structure CWCluster where
  id : Nat
  label : String
  keywords : List KeywordRecord
  centroid : List ℚ
  metrics : CWMetrics
deriving DecidableEq, Repr, Inhabited

/-- The result dict of `ClusterWorker.cluster_keywords`. -/
structure ClusterResult where
  clusters : List CWCluster
  metadata : ClusterMetadata
deriving DecidableEq, Repr, Inhabited

/-- Python's `round(x, d)` on our rational model of the float values
(standard rounding; no claim depends on the half-way tie behaviour). -/
def roundTo (d : Nat) (x : ℚ) : ℚ :=
  ((round (x * (10 : ℚ) ^ d) : ℤ) : ℚ) / (10 : ℚ) ^ d

/-- The worker's stop-word set. -/
def cwStopWords : List String :=
  ["the", "a", "an", "and", "or", "but", "in", "on", "at", "to", "for", "of",
   "with", "by"]

/-- Python's `str.title()` as used on the generated labels: capitalize each
space-separated word (the inputs are already lower-cased). -/
def titleCase (s : String) : String :=
  String.intercalate " " ((s.splitOn " ").map String.capitalize)

/-- Model of `ClusterWorker._generate_cluster_label`: count non-stop-word tokens
longer than 2 characters across the lower-cased member keywords, and join
the top 2 by frequency; fall back to the first member's keyword text; then
title-case. -/
def cwGenerateClusterLabel (members : List KeywordRecord) : String :=
  let texts := members.map (fun kw => kw.keyword.toLower)
  let words := (texts.map splitWords).flatten.filter
    (fun w => w ∉ cwStopWords ∧ w.length > 2)
  let counts := words.foldl bumpWord []
  let label :=
    if counts.isEmpty then (members.getD 0 default).keyword
    else String.intercalate " " (((sortByCountDesc counts).take 2).map (fun p => p.1))
  titleCase label

/-- Model of `ClusterWorker._calculate_cluster_metrics`: averages over
`search_volume` (default 0) and `difficulty` (default 50), total count and
intent distribution (insertion-ordered counts, default intent
`"unknown"`). -/
def cwCalculateClusterMetrics (members : List KeywordRecord) : CWMetrics :=
  if members.isEmpty then
    { avgSearchVolume := 0, avgDifficulty := 0, totalKeywords := 0,
      intentDistribution := [] }
  else
    { avgSearchVolume :=
        roundTo 2 (listMeanQ (members.map (fun kw => kw.searchVolume.getD 0))),
      avgDifficulty :=
        roundTo 2 (listMeanQ (members.map (fun kw => kw.difficulty.getD 50))),
      totalKeywords := members.length,
      intentDistribution :=
        (members.map (fun kw => kw.intent.getD "unknown")).foldl bumpWord [] }

/-- Per-label loop of `ClusterWorker._create_cluster_objects` (noise label
`-1` skipped; `set(cluster_labels)` iteration modelled in ascending
order). -/
def cwCreateClusterObjectsGo (kws : List KeywordRecord) (labels : List Int)
    (embeddings : List (List ℚ)) (newIds : Nat → Nat) :
    List Int → Nat → List CWCluster
  | [], _ => []
  | l :: ls, i =>
    { id := newIds i,
      label := cwGenerateClusterLabel (membersWithLabel kws labels l),
      keywords := membersWithLabel kws labels l,
      centroid := vecMean (embsWithLabel embeddings labels l),
      metrics := cwCalculateClusterMetrics (membersWithLabel kws labels l) } ::
      cwCreateClusterObjectsGo kws labels embeddings newIds ls (i + 1)

/-- Model of `ClusterWorker._create_cluster_objects`. -/
def cwCreateClusterObjects (kws : List KeywordRecord) (labels : List Int)
    (embeddings : List (List ℚ)) (newIds : Nat → Nat) : List CWCluster :=
  cwCreateClusterObjectsGo kws labels embeddings newIds
    ((sortedDedup labels).filter (fun l => l ≠ -1)) 0

/-- Model of `ClusterWorker._calculate_cluster_metadata`: zeros when no clusters;
otherwise the rounded mean cluster size, and the silhouette score over the
non-noise points when more than one cluster and label exist (the external
`silhouette_score` call sits in its own `try`, falling back to 0 on
failure). -/
def calculateClusterMetadata (clusters : List CWCluster)
    (embeddings : List (List ℚ)) (labels : List Int)
    (sil : List (List ℚ) → List Int → Except String ℚ) : ClusterMetadata :=
  if clusters.length = 0 then
    { totalClusters := 0, avgClusterSize := 0, silhouetteScore := 0 }
  else
    let silhouette :=
      if 1 < clusters.length ∧ 1 < labels.dedup.length then
        let valid := (embeddings.zip labels).filter (fun p => p.2 ≠ -1)
        if 1 < valid.length then
          match sil (valid.map (fun p => p.1)) (valid.map (fun p => p.2)) with
          | .ok s => s
          | .error _ => 0
        else 0
      else 0
    { totalClusters := clusters.length,
      avgClusterSize :=
        roundTo 2 (listMeanQ (clusters.map (fun c => (c.keywords.length : ℚ)))),
      silhouetteScore := roundTo 3 silhouette }

/-- The empty-batch / error-fallback result
`{clusters: [], metadata: {total_clusters: 0, avg_cluster_size: 0,
silhouette_score: 0}}`. -/
def emptyClusterResult : ClusterResult :=
  { clusters := [],
    metadata := { totalClusters := 0, avgClusterSize := 0, silhouetteScore := 0 } }

/-- Truthiness of `keywords[0].get('embedding')`: a missing key and an empty
list are both falsy. -/
def hasProvidedEmbedding : Option (List ℚ) → Bool
  | none => false
  | some [] => false
  | some (_ :: _) => true

/-- The `try` body of `ClusterWorker.cluster_keywords`: early empty-batch
return, embedding acquisition (own embeddings, or the external model via
`embed`, which may raise), HDBSCAN (external, may raise), then the pure
cluster-object and metadata stages. -/
def clusterKeywordsRun (embed : List String → Except String (List (List ℚ)))
    (hdb : List (List ℚ) → Except String (List Int))
    (sil : List (List ℚ) → List Int → Except String ℚ)
    (newIds : Nat → Nat) (keywords : List KeywordRecord) :
    Except String ClusterResult :=
  if keywords.isEmpty then Except.ok emptyClusterResult
  else
    match (if hasProvidedEmbedding (keywords.getD 0 default).embedding then
            Except.ok (keywords.map (fun kw => kw.embedding.getD []))
           else embed (keywords.map (fun kw => kw.keyword))) with
    | .error e => .error e
    | .ok embeddings =>
      match hdb embeddings with
      | .error e => .error e
      | .ok labels =>
        let clusters := cwCreateClusterObjects keywords labels embeddings newIds
        Except.ok { clusters := clusters,
                    metadata := calculateClusterMetadata clusters embeddings labels sil }

/-- Model of `ClusterWorker.cluster_keywords`: the `try` body with the blanket
`except` handler returning the empty result. -/
def clusterKeywords (embed : List String → Except String (List (List ℚ)))
    (hdb : List (List ℚ) → Except String (List Int))
    (sil : List (List ℚ) → List Int → Except String ℚ)
    (newIds : Nat → Nat) (keywords : List KeywordRecord) : ClusterResult :=
  match clusterKeywordsRun embed hdb sil newIds keywords with
  | .ok r => r
  | .error _ => emptyClusterResult

theorem argmaxGo_bound (rest : List ℚ) :
    ∀ (best : Nat) (bv : ℚ) (i : Nat),
      argmaxGo best bv i rest = best ∨
        (i ≤ argmaxGo best bv i rest ∧ argmaxGo best bv i rest < i + rest.length) := by
  induction rest with
  | nil => intro best bv i; left; rfl
  | cons y rest ih =>
    intro best bv i
    simp only [argmaxGo, List.length_cons]
    by_cases h : bv < y
    · rw [if_pos h]
      rcases ih i y (i + 1) with h1 | ⟨h2, h3⟩
      · right; rw [h1]; omega
      · right; omega
    · rw [if_neg h]
      rcases ih best bv (i + 1) with h1 | ⟨h2, h3⟩
      · left; exact h1
      · right; omega

theorem argmaxIdx_lt_length {xs : List ℚ} (h : xs ≠ []) :
    argmaxIdx xs < xs.length := by
  match xs, h with
  | x :: rest, _ =>
    simp only [argmaxIdx, List.length_cons]
    rcases argmaxGo_bound rest 0 x 1 with h1 | ⟨h2, h3⟩
    · rw [h1]; omega
    · omega

theorem mem_kCandidates {m k : Nat} (hm : 2 ≤ m) :
    k ∈ kCandidates m ↔ 2 ≤ k ∧ k ≤ m := by
  unfold kCandidates
  rw [List.mem_range']
  constructor
  · rintro ⟨i, hi, rfl⟩
    omega
  · rintro ⟨h2, hk⟩
    exact ⟨k - 2, by omega, by omega⟩

theorem kCandidates_ne_nil {m : Nat} (hm : 2 ≤ m) : kCandidates m ≠ [] := by
  unfold kCandidates
  intro h
  have := congrArg List.length h
  simp [List.length_range'] at this
  omega

theorem collectScores_ok_lengths {inertia sil : Nat → Except String ℚ}
    {ks : List Nat} {is ss : List ℚ}
    (h : collectScores inertia sil ks = .ok (is, ss)) :
    is.length = ks.length ∧ ss.length = ks.length := by
  induction ks generalizing is ss with
  | nil =>
    simp only [collectScores] at h
    cases h
    simp
  | cons k ks ih =>
    simp only [collectScores] at h
    cases hiv : inertia k with
    | error e => rw [hiv] at h; cases h
    | ok iv =>
      rw [hiv] at h
      cases hsv : sil k with
      | error e => rw [hsv] at h; cases h
      | ok sv =>
        rw [hsv] at h
        cases hrec : collectScores inertia sil ks with
        | error e => rw [hrec] at h; cases h
        | ok p =>
          rw [hrec] at h
          obtain ⟨is', ss'⟩ := p
          cases h
          have := ih hrec
          simp [List.length_cons]
          omega

theorem getD_mem_of_lt {l : List Nat} {i : Nat} (h : i < l.length) (d : Nat) :
    l.getD i d ∈ l := by
  rw [List.getD_eq_getElem l d h]
  exact List.getElem_mem h

theorem getLastD_mem {l : List Nat} (h : l ≠ []) (d : Nat) : l.getLastD d ∈ l := by
  induction l generalizing d with
  | nil => exact absurd rfl h
  | cons a l ih =>
    rw [List.getLastD_cons]
    cases l with
    | nil => simp [List.getLastD_nil]
    | cons b t => exact List.mem_cons_of_mem a (ih (by simp) a)

/-- The elbow candidate is either the fallback 5 or an element of the
candidate range. -/
theorem findElbowPoint_mem_or_five (kRange : List Nat) (inertias : List ℚ)
    (hne : kRange ≠ []) :
    findElbowPoint kRange inertias = 5 ∨ findElbowPoint kRange inertias ∈ kRange := by
  unfold findElbowPoint
  by_cases he : (diffQ (diffQ inertias)).isEmpty
  · rw [if_pos he]; left; rfl
  · rw [if_neg he]
    by_cases hlt : argmaxIdx (diffQ (diffQ inertias)) + 2 < kRange.length
    · rw [if_pos hlt]; right; exact getD_mem_of_lt hlt 0
    · rw [if_neg hlt]; right; exact getLastD_mem hne 0

/-- C1 (amended), core facts about `_estimate_optimal_clusters`:
(a) when `min(20, N // 5) < 2` the estimator returns 2 (not 5);
(b) a numeric failure in the candidate loop yields the fallback 5;
(c) otherwise the result is the minimum of the elbow candidate and the
best-silhouette candidate and lies in `[2, min(20, N // 5)]`. -/
theorem estimateOptimalClusters_spec (n : Nat) (inertia sil : Nat → Except String ℚ) :
    (min 20 (n / 5) < 2 → estimateOptimalClusters n inertia sil = 2) ∧
    (∀ e : String, 2 ≤ min 20 (n / 5) →
      collectScores inertia sil (kCandidates (min 20 (n / 5))) = .error e →
      estimateOptimalClusters n inertia sil = 5) ∧
    (∀ inertias silScores : List ℚ, 2 ≤ min 20 (n / 5) →
      collectScores inertia sil (kCandidates (min 20 (n / 5))) = .ok (inertias, silScores) →
      estimateOptimalClusters n inertia sil =
        min (findElbowPoint (kCandidates (min 20 (n / 5))) inertias)
          ((kCandidates (min 20 (n / 5))).getD (argmaxIdx silScores) 0) ∧
      2 ≤ estimateOptimalClusters n inertia sil ∧
      estimateOptimalClusters n inertia sil ≤ min 20 (n / 5)) := by
  refine ⟨?_, ?_, ?_⟩
  · intro h
    unfold estimateOptimalClusters
    rw [if_pos h]
  · intro e hfeas herr
    unfold estimateOptimalClusters
    rw [if_neg (by omega)]
    rw [herr]
  · intro inertias silScores hfeas hok
    have hval : estimateOptimalClusters n inertia sil =
        min (findElbowPoint (kCandidates (min 20 (n / 5))) inertias)
          ((kCandidates (min 20 (n / 5))).getD (argmaxIdx silScores) 0) := by
      unfold estimateOptimalClusters
      rw [if_neg (by omega)]
      rw [hok]
    refine ⟨hval, ?_, ?_⟩
    · -- both candidates are at least 2
      rw [hval]
      have hne := kCandidates_ne_nil hfeas
      have hsil : (kCandidates (min 20 (n / 5))).getD (argmaxIdx silScores) 0 ∈
          kCandidates (min 20 (n / 5)) := by
        have hlen := (collectScores_ok_lengths hok).2
        have hslne : silScores ≠ [] := by
          intro hc
          subst hc
          simp at hlen
          exact hne (List.eq_nil_of_length_eq_zero hlen.symm)
        exact getD_mem_of_lt (by rw [← hlen]; exact argmaxIdx_lt_length hslne) 0
      have hsil2 := ((mem_kCandidates hfeas).1 hsil).1
      rcases findElbowPoint_mem_or_five (kCandidates (min 20 (n / 5))) inertias hne with
        h5 | hmem
      · rw [h5]; omega
      · have := ((mem_kCandidates hfeas).1 hmem).1
        omega
    · -- the minimum is at most the silhouette candidate, which is ≤ max_clusters
      rw [hval]
      have hne := kCandidates_ne_nil hfeas
      have hlen := (collectScores_ok_lengths hok).2
      have hslne : silScores ≠ [] := by
        intro hc
        subst hc
        simp at hlen
        exact hne (List.eq_nil_of_length_eq_zero hlen.symm)
      have hsil : (kCandidates (min 20 (n / 5))).getD (argmaxIdx silScores) 0 ∈
          kCandidates (min 20 (n / 5)) :=
        getD_mem_of_lt (by rw [← hlen]; exact argmaxIdx_lt_length hslne) 0
      have := ((mem_kCandidates hfeas).1 hsil).2
      omega

/-- Witness for `estimateOptimalClusters_spec` at `N = 50` with concrete
(successful) numeric oracles. -/
theorem estimateOptimalClusters_spec_witness :
    estimateOptimalClusters 50 (fun _ => Except.ok 0) (fun _ => Except.ok 0) =
      min (findElbowPoint (kCandidates (min 20 (50 / 5))) [0, 0, 0, 0, 0, 0, 0, 0, 0])
        ((kCandidates (min 20 (50 / 5))).getD (argmaxIdx [0, 0, 0, 0, 0, 0, 0, 0, 0]) 0) ∧
    2 ≤ estimateOptimalClusters 50 (fun _ => Except.ok 0) (fun _ => Except.ok 0) ∧
    estimateOptimalClusters 50 (fun _ => Except.ok 0) (fun _ => Except.ok 0) ≤
      min 20 (50 / 5) :=
  (estimateOptimalClusters_spec 50 (fun _ => Except.ok 0) (fun _ => Except.ok 0)).2.2
    [0, 0, 0, 0, 0, 0, 0, 0, 0] [0, 0, 0, 0, 0, 0, 0, 0, 0] (by decide) rfl

/-- C1 counterexample: with `N = 9` the candidate range is infeasible
(`min(20, 9 // 5) = 1 < 2`) and the estimator returns 2, not the 5 the claim
asserts for that case. -/
theorem estimateOptimalClusters_infeasible_counterexample :
    min 20 (9 / 5) < 2 ∧
    estimateOptimalClusters 9 (fun _ => Except.ok 0) (fun _ => Except.ok 0) = 2 ∧
    estimateOptimalClusters 9 (fun _ => Except.ok 0) (fun _ => Except.ok 0) ≠ 5 :=
  ⟨by decide, rfl, by decide⟩

theorem pairRates_eq_map_distinctPairs (topicWords documents : List String) :
    pairRates topicWords documents =
      (distinctPairs topicWords).map (fun p => coOccurrenceRate p.1 p.2 documents) := by
  induction topicWords with
  | nil => rfl
  | cons w ws ih =>
    simp only [pairRates, distinctPairs, List.map_append, List.map_map, ih]
    rfl

theorem pairRates_nil_of_short {topicWords : List String} (documents : List String)
    (h : topicWords.length < 2) : pairRates topicWords documents = [] := by
  match topicWords, h with
  | [], _ => rfl
  | [w], _ => simp [pairRates]

/-- C7: the code's per-topic coherence agrees with the spec formula (mean
co-occurrence rate over all unordered pairs of the top terms), it is 0 for
fewer than 2 terms, and the model-level `coherence_score` is the mean of the
per-topic coherences. -/
theorem topicCoherence_spec (topicWords documents : List String)
    (_hnd : topicWords.Nodup) :
    calculateTopicCoherence topicWords documents =
      specTopicCoherence topicWords documents ∧
    (topicWords.length < 2 → calculateTopicCoherence topicWords documents = 0) ∧
    (∀ topicTopWords : List (List String),
      modelCoherenceScore topicTopWords documents =
        listMeanQ (topicTopWords.map (fun ws => calculateTopicCoherence ws documents))) := by
  refine ⟨?_, ?_, fun _ => rfl⟩
  · unfold calculateTopicCoherence specTopicCoherence
    rw [pairRates_eq_map_distinctPairs]
    simp only [List.length_map]
    by_cases h : (distinctPairs topicWords).isEmpty
    · rw [if_pos h]
      rw [List.isEmpty_iff] at h
      rw [h]
      simp
    · rw [if_neg h]
      rw [List.isEmpty_iff] at h
      have : 0 < (distinctPairs topicWords).length := by
        cases hd : distinctPairs topicWords with
        | nil => exact absurd hd h
        | cons a t => simp
      rw [if_pos this]
  · intro h
    unfold calculateTopicCoherence
    rw [pairRates_nil_of_short documents h]
    simp

/-- Witness for `topicCoherence_spec` on concrete words and documents. -/
theorem topicCoherence_spec_witness :
    calculateTopicCoherence ["seo", "tools"] ["best seo tools", "seo tutorial"] =
      specTopicCoherence ["seo", "tools"] ["best seo tools", "seo tutorial"] :=
  (topicCoherence_spec ["seo", "tools"] ["best seo tools", "seo tutorial"]
    (by decide)).1

/-- C3 (amended): the engine dispatches exactly the three strategy names
`hierarchical`, `topic_modeling` and `hybrid`, and raises the
unsupported-strategy error for every other name — including `density`,
which the dispatch does not accept. -/
theorem dispatchMethod_spec (method : String) :
    ((∃ s, dispatchMethod method = Except.ok s) ↔
      method = "hierarchical" ∨ method = "topic_modeling" ∨ method = "hybrid") ∧
    ((dispatchMethod method =
        Except.error ("Unsupported clustering method: " ++ method)) ↔
      ¬(method = "hierarchical" ∨ method = "topic_modeling" ∨ method = "hybrid")) := by
  unfold dispatchMethod
  by_cases h1 : method = "hierarchical"
  · simp [h1]
  · rw [if_neg h1]
    by_cases h2 : method = "topic_modeling"
    · simp [h2]
    · rw [if_neg h2]
      by_cases h3 : method = "hybrid"
      · simp [h3]
      · rw [if_neg h3]
        simp [h1, h2, h3]

/-- C3 counterexample: the strategy name `density` is rejected with the
unsupported-strategy error, although the claim says the engine accepts it. -/
theorem dispatchMethod_density_counterexample :
    dispatchMethod "density" =
      Except.error "Unsupported clustering method: density" := by
  rfl

theorem unwrittenFieldsEq_refl (a : KeywordRecord) : unwrittenFieldsEq a a :=
  ⟨rfl, rfl, rfl, rfl, rfl⟩

theorem unwrittenFieldsEq_trans {a b c : KeywordRecord}
    (h1 : unwrittenFieldsEq a b) (h2 : unwrittenFieldsEq b c) :
    unwrittenFieldsEq a c := by
  obtain ⟨x1, x2, x3, x4, x5⟩ := h1
  obtain ⟨y1, y2, y3, y4, y5⟩ := h2
  exact ⟨x1.trans y1, x2.trans y2, x3.trans y3, x4.trans y4, x5.trans y5⟩

theorem applyAssignment_frame (l : Int) (cid : Nat) (clab : String) :
    ∀ (kws : List KeywordRecord) (labs : List Int),
      onlyClusterFieldsWritten kws (applyAssignment kws labs l cid clab) := by
  intro kws
  induction kws with
  | nil =>
    intro labs
    refine ⟨⟨?_, ?_⟩, ?_⟩ <;> intros <;> simp [applyAssignment, unwrittenFieldsEq_refl]
  | cons kw kws ih =>
    intro labs
    cases labs with
    | nil =>
      refine ⟨⟨rfl, ?_⟩, ?_⟩ <;> intro j <;>
        exact (by first | exact unwrittenFieldsEq_refl _ | rfl)
    | cons lab labs =>
      obtain ⟨⟨hlen, hfields⟩, htid⟩ := ih labs
      refine ⟨⟨?_, ?_⟩, ?_⟩
      · simpa [applyAssignment] using hlen
      · intro j
        cases j with
        | zero =>
          by_cases h : lab = l <;>
            simp [applyAssignment, h, unwrittenFieldsEq_refl, unwrittenFieldsEq]
        | succ n => simpa [applyAssignment] using hfields n
      · intro j
        cases j with
        | zero =>
          by_cases h : lab = l <;> simp [applyAssignment, h]
        | succ n => simpa [applyAssignment] using htid n

theorem applyTopicAssignment_frame (l : Nat) (cid : Nat) (clab : String) :
    ∀ (kws : List KeywordRecord) (labs : List Nat),
      onlyTopicFieldsWritten kws (applyTopicAssignment kws labs l cid clab) := by
  intro kws
  induction kws with
  | nil =>
    intro labs
    refine ⟨?_, ?_⟩ <;> intros <;> simp [applyTopicAssignment, unwrittenFieldsEq_refl]
  | cons kw kws ih =>
    intro labs
    cases labs with
    | nil => exact ⟨rfl, fun j => unwrittenFieldsEq_refl _⟩
    | cons lab labs =>
      obtain ⟨hlen, hfields⟩ := ih labs
      refine ⟨?_, ?_⟩
      · simpa [applyTopicAssignment] using hlen
      · intro j
        cases j with
        | zero =>
          by_cases h : lab = l <;>
            simp [applyTopicAssignment, h, unwrittenFieldsEq_refl, unwrittenFieldsEq]
        | succ n => simpa [applyTopicAssignment] using hfields n

theorem onlyTopicFieldsWritten_refl (kws : List KeywordRecord) :
    onlyTopicFieldsWritten kws kws :=
  ⟨rfl, fun _ => unwrittenFieldsEq_refl _⟩

theorem onlyTopicFieldsWritten_trans {a b c : List KeywordRecord}
    (h1 : onlyTopicFieldsWritten a b) (h2 : onlyTopicFieldsWritten b c) :
    onlyTopicFieldsWritten a c :=
  ⟨h2.1.trans h1.1, fun j => unwrittenFieldsEq_trans (h2.2 j) (h1.2 j)⟩

theorem onlyClusterFieldsWritten_refl (kws : List KeywordRecord) :
    onlyClusterFieldsWritten kws kws :=
  ⟨onlyTopicFieldsWritten_refl kws, fun _ => rfl⟩

theorem onlyClusterFieldsWritten_trans {a b c : List KeywordRecord}
    (h1 : onlyClusterFieldsWritten a b) (h2 : onlyClusterFieldsWritten b c) :
    onlyClusterFieldsWritten a c :=
  ⟨onlyTopicFieldsWritten_trans h1.1 h2.1, fun j => (h2.2 j).trans (h1.2 j)⟩

theorem createClusterObjectsGo_frame (labels : List Int)
    (embeddings : List (List ℚ)) (newIds : Nat → Nat) (uniq : List Int) :
    ∀ (i : Nat) (kws : List KeywordRecord),
      onlyClusterFieldsWritten kws
        (createClusterObjectsGo labels embeddings newIds uniq i kws).2 := by
  induction uniq with
  | nil => intro i kws; exact onlyClusterFieldsWritten_refl kws
  | cons l ls ih =>
    intro i kws
    have hstep : (createClusterObjectsGo labels embeddings newIds (l :: ls) i kws).2 =
        (createClusterObjectsGo labels embeddings newIds ls (i + 1)
          (applyAssignment kws labels l (newIds i)
            (generateClusterLabel (membersWithLabel kws labels l)))).2 := by
      simp only [createClusterObjectsGo]
    rw [hstep]
    exact onlyClusterFieldsWritten_trans
      (applyAssignment_frame l (newIds i)
        (generateClusterLabel (membersWithLabel kws labels l)) kws labels)
      (ih (i + 1) _)

theorem createTopicClustersGo_frame (labels : List Nat) (dists : List (List ℚ))
    (topWords : Nat → List String) (newIds : Nat → Nat) (uniq : List Nat) :
    ∀ (i : Nat) (kws : List KeywordRecord),
      onlyTopicFieldsWritten kws
        (createTopicClustersGo labels dists topWords newIds uniq i kws).2 := by
  induction uniq with
  | nil => intro i kws; exact onlyTopicFieldsWritten_refl kws
  | cons l ls ih =>
    intro i kws
    have hstep : (createTopicClustersGo labels dists topWords newIds (l :: ls) i kws).2 =
        (createTopicClustersGo labels dists topWords newIds ls (i + 1)
          (applyTopicAssignment kws labels l (newIds i)
            (topicLabelString l (topWords l)))).2 := by
      simp only [createTopicClustersGo]
    rw [hstep]
    exact onlyTopicFieldsWritten_trans
      (applyTopicAssignment_frame l (newIds i) (topicLabelString l (topWords l)) kws labels)
      (ih (i + 1) _)

/-- C8 (amended): the hierarchical assigner's write-back touches only
`cluster_id` and `cluster_label` (every other field of every record,
`topic_id` included, is unchanged), while the topic assigner additionally
writes `topic_id`; all remaining fields are unchanged under both. -/
theorem clusterAssignment_frame_spec (kws : List KeywordRecord) (labels : List Int)
    (embeddings : List (List ℚ)) (natLabels : List Nat) (dists : List (List ℚ))
    (topWords : Nat → List String) (newIds : Nat → Nat) :
    onlyClusterFieldsWritten kws
      (createClusterObjects kws labels embeddings newIds).2 ∧
    onlyTopicFieldsWritten kws
      (createTopicClusters kws natLabels dists topWords newIds).2 :=
  ⟨createClusterObjectsGo_frame labels embeddings newIds _ 0 kws,
   createTopicClustersGo_frame natLabels dists topWords newIds _ 0 kws⟩

/-- C8 counterexample: under the `topic_modeling` strategy the write-back
also sets `topic_id` — here a record whose `topic_id` was `none` comes back
with `topic_id = some 0`, so the engine does not write only
`cluster_id`/`cluster_label`. -/
theorem topicId_write_counterexample :
    (({ keyword := "seo" } : KeywordRecord).topicId = none) ∧
    (((createTopicClusters [{ keyword := "seo" }] [0] [[1]]
        (fun _ => ["seo"]) (fun i => i)).2.getD 0 default).topicId = some 0) :=
  ⟨rfl, rfl⟩

theorem buildLevelsFuel_eq (fuel : Nat) :
    ∀ current : List (List ClusterObj), current.length < fuel →
      buildLevelsFuel fuel current = buildLevels current := by
  induction fuel with
  | zero => intro c h; omega
  | succ fuel ih =>
    intro c h
    rw [buildLevels]
    by_cases hc : c = []
    · simp [buildLevelsFuel, hc]
    · rw [dif_neg hc]
      simp only [buildLevelsFuel, if_neg hc]
      have hlt := groupClusterGroups_length_lt c hc
      rw [ih (groupClusterGroups c) (by omega)]

/-- The function `buildLevels` is the fixed point of the bounded loop with
`length + 1` iterations: the loop terminates on every finite input. -/
theorem buildLevels_eq_fuel (current : List (List ClusterObj)) :
    buildLevels current = buildLevelsFuel (current.length + 1) current :=
  (buildLevelsFuel_eq (current.length + 1) current (by omega)).symm

theorem buildLevelsFuel_length_le (fuel : Nat) :
    ∀ current : List (List ClusterObj),
      (buildLevelsFuel fuel current).length ≤ current.length := by
  induction fuel with
  | zero => intro c; simp [buildLevelsFuel]
  | succ fuel ih =>
    intro c
    by_cases hc : c = []
    · simp [buildLevelsFuel, hc]
    · simp only [buildLevelsFuel, if_neg hc, List.length_cons]
      have h1 := ih (groupClusterGroups c)
      have h2 := groupClusterGroups_length_lt c hc
      omega

/-- The loop produces at most as many levels as there are initial groups. -/
theorem buildLevels_length_le (current : List (List ClusterObj)) :
    (buildLevels current).length ≤ current.length := by
  rw [buildLevels_eq_fuel]
  exact buildLevelsFuel_length_le (current.length + 1) current

/-- C6: the Hierarchy Builder's grouping loop terminates on every finite
cluster set — each pass strictly reduces the number of groups or stops
(returns no next level); a pass over at most one group, or a merge that
fails to reduce the count, produces no further level; the level loop equals
a bounded iteration and yields at most as many levels as initial groups. -/
theorem groupingLoop_terminates (groups : List (List ClusterObj)) (h : groups ≠ []) :
    (groupClusterGroups groups).length < groups.length ∧
    (groups.length ≤ 1 → groupClusterGroups groups = []) ∧
    (1 < groups.length →
      groups.length ≤
        ((greedyPass (groupSim groups) (3 / 5) groups.enum groups.enum []).map
          List.flatten).length →
      groupClusterGroups groups = []) ∧
    buildLevels groups = buildLevelsFuel (groups.length + 1) groups ∧
    (buildLevels groups).length ≤ groups.length := by
  refine ⟨groupClusterGroups_length_lt groups h, ?_, ?_,
    buildLevels_eq_fuel groups, buildLevels_length_le groups⟩
  · intro h1
    unfold groupClusterGroups
    rw [if_pos h1]
  · intro h1 h2
    unfold groupClusterGroups
    rw [if_neg (by omega)]
    rw [if_neg (by omega)]

/-- Witness for `groupingLoop_terminates` on a concrete one-group input. -/
theorem groupingLoop_terminates_witness :
    (groupClusterGroups [[sampleCluster]]).length <
      ([[sampleCluster]] : List (List ClusterObj)).length ∧
    groupClusterGroups [[sampleCluster]] = [] :=
  ⟨(groupingLoop_terminates [[sampleCluster]] (by simp)).1,
   (groupingLoop_terminates [[sampleCluster]] (by simp)).2.1 (by simp)⟩

theorem mkGroupNodes_shape (level : Nat) :
    ∀ (count : Nat) (gs : List (List ClusterObj)) (nd : HierarchyNode),
      nd ∈ mkGroupNodes level count gs →
      (∃ k, nd.id = NodeId.group level k) ∧ nd.level = level ∧
      ∀ x ∈ nd.children, ∃ c, x = NodeId.clusterRef c := by
  intro count gs
  induction gs generalizing count with
  | nil => intro nd h; exact absurd h (by simp [mkGroupNodes])
  | cons g gs ih =>
    intro nd h
    rw [mkGroupNodes, List.mem_cons] at h
    rcases h with h | h
    · subst h
      refine ⟨⟨count, rfl⟩, rfl, ?_⟩
      intro x hx
      rw [List.mem_map] at hx
      obtain ⟨c, _, hc⟩ := hx
      exact ⟨c.id, hc.symm⟩
    · exact ih (count + 1) nd h

theorem mkLevelNodes_shape :
    ∀ (lvls : List (List (List ClusterObj))) (level count : Nat)
      (nd : HierarchyNode), nd ∈ mkLevelNodes level count lvls →
      (∃ l k, nd.id = NodeId.group l k ∧ level ≤ l ∧ nd.level = l) ∧
      ∀ x ∈ nd.children, ∃ c, x = NodeId.clusterRef c := by
  intro lvls
  induction lvls with
  | nil => intro level count nd h; exact absurd h (by simp [mkLevelNodes])
  | cons lvl rest ih =>
    intro level count nd h
    rw [mkLevelNodes, List.mem_append] at h
    rcases h with h | h
    · obtain ⟨⟨k, hk⟩, hlvl, hch⟩ := mkGroupNodes_shape level count lvl nd h
      exact ⟨⟨level, k, hk, le_refl level, hlvl⟩, hch⟩
    · obtain ⟨⟨l, k, hk, hle, hlvl⟩, hch⟩ := ih (level + 1) (count + lvl.length) nd h
      exact ⟨⟨l, k, hk, by omega, hlvl⟩, hch⟩

theorem range'_append_one (s a b : Nat) :
    List.range' s a ++ List.range' (s + a) b = List.range' s (a + b) := by
  have h := List.range'_append s a b 1
  simp only [one_mul] at h
  rw [Nat.add_comm b a] at h
  exact h

theorem mkGroupNodes_idx (level : Nat) :
    ∀ (count : Nat) (gs : List (List ClusterObj)),
      (mkGroupNodes level count gs).map (fun nd => nodeIdx nd.id) =
        List.range' count gs.length := by
  intro count gs
  induction gs generalizing count with
  | nil => simp [mkGroupNodes]
  | cons g gs ih =>
    rw [mkGroupNodes, List.map_cons, ih (count + 1)]
    simp [nodeIdx, List.range'_succ]

theorem mkLevelNodes_idx :
    ∀ (lvls : List (List (List ClusterObj))) (level count : Nat),
      (mkLevelNodes level count lvls).map (fun nd => nodeIdx nd.id) =
        List.range' count ((lvls.map List.length).sum) := by
  intro lvls
  induction lvls with
  | nil => intro level count; simp [mkLevelNodes]
  | cons lvl rest ih =>
    intro level count
    rw [mkLevelNodes, List.map_append, mkGroupNodes_idx, ih (level + 1)]
    rw [range'_append_one]
    simp

theorem mkLevelNodes_id_nodup (lvls : List (List (List ClusterObj)))
    (level count : Nat) :
    ((mkLevelNodes level count lvls).map (fun nd => nd.id)).Nodup := by
  apply List.Nodup.of_map nodeIdx
  have h : (((mkLevelNodes level count lvls).map (fun nd => nd.id)).map nodeIdx) =
      (mkLevelNodes level count lvls).map (fun nd => nodeIdx nd.id) := by
    rw [List.map_map]
    rfl
  rw [h, mkLevelNodes_idx]
  exact List.nodup_range' count _

theorem buildClusterHierarchy_eq (clusters : List ClusterObj) :
    buildClusterHierarchy clusters =
      { id := NodeId.root, label := "All Keywords",
        children := (mkLevelNodes 1 1 (groupSimilarClusters clusters)).map
          (fun nd => nd.id),
        level := 0, size := sumSizes clusters } ::
        mkLevelNodes 1 1 (groupSimilarClusters clusters) := rfl

/-- C2 (amended): for every run producing at least one Cluster the hierarchy
has exactly one root entry; the root sits at level 0 (the minimum — group
levels start at 1 and grow away from it, leaf clusters appearing only as
children ids); the root's size is the sum of all Cluster sizes; and every
non-root node has exactly one parent (it occurs exactly once among the
root's children and nowhere else). -/
theorem buildClusterHierarchy_spec (clusters : List ClusterObj)
    (_hcl : clusters ≠ []) :
    ((buildClusterHierarchy clusters).filter
      (fun nd => nd.id = NodeId.root)).length = 1 ∧
    ((buildClusterHierarchy clusters).getD 0 default).id = NodeId.root ∧
    ((buildClusterHierarchy clusters).getD 0 default).level = 0 ∧
    ((buildClusterHierarchy clusters).getD 0 default).size = sumSizes clusters ∧
    (∀ nd ∈ buildClusterHierarchy clusters, nd.id ≠ NodeId.root →
      1 ≤ nd.level ∧ parentCount (buildClusterHierarchy clusters) nd.id = 1) := by
  have hshape := fun nd h => mkLevelNodes_shape (groupSimilarClusters clusters) 1 1 nd h
  refine ⟨?_, rfl, rfl, rfl, ?_⟩
  · rw [buildClusterHierarchy_eq, List.filter_cons]
    have hroot : (decide ((NodeId.root : NodeId) = NodeId.root)) = true := by decide
    simp only [hroot, if_pos]
    have hnone : (mkLevelNodes 1 1 (groupSimilarClusters clusters)).filter
        (fun nd => nd.id = NodeId.root) = [] := by
      rw [List.filter_eq_nil_iff]
      intro nd hnd
      obtain ⟨⟨l, k, hk, _, _⟩, _⟩ := hshape nd hnd
      simp [hk]
    rw [hnone]
    rfl
  · intro nd hnd hne
    rw [buildClusterHierarchy_eq, List.mem_cons] at hnd
    rcases hnd with hnd | hnd
    · exact absurd (by rw [hnd]) hne
    · obtain ⟨⟨l, k, hk, hle, hlvl⟩, _⟩ := hshape nd hnd
      refine ⟨by omega, ?_⟩
      rw [buildClusterHierarchy_eq]
      unfold parentCount
      rw [List.map_cons, List.sum_cons]
      have hcount1 : ((mkLevelNodes 1 1 (groupSimilarClusters clusters)).map
          (fun m => m.id)).count nd.id = 1 := by
        apply List.count_eq_one_of_mem (mkLevelNodes_id_nodup _ 1 1)
        exact List.mem_map_of_mem (fun m => m.id) hnd
      have hzero : ((mkLevelNodes 1 1 (groupSimilarClusters clusters)).map
          (fun m => m.children.count nd.id)).sum = 0 := by
        apply List.sum_eq_zero
        intro x hx
        rw [List.mem_map] at hx
        obtain ⟨m, hm, hxe⟩ := hx
        obtain ⟨_, hch⟩ := hshape m hm
        rw [← hxe]
        rw [List.count_eq_zero]
        intro hmemc
        obtain ⟨c, hc⟩ := hch nd.id hmemc
        rw [hk] at hc
        cases hc
      rw [hcount1, hzero]

/-- Witness for `buildClusterHierarchy_spec` on a concrete singleton cluster
list. -/
theorem buildClusterHierarchy_spec_witness :
    ((buildClusterHierarchy [sampleCluster]).filter
      (fun nd => nd.id = NodeId.root)).length = 1 ∧
    ((buildClusterHierarchy [sampleCluster]).getD 0 default).id = NodeId.root ∧
    ((buildClusterHierarchy [sampleCluster]).getD 0 default).level = 0 ∧
    ((buildClusterHierarchy [sampleCluster]).getD 0 default).size =
      sumSizes [sampleCluster] ∧
    (∀ nd ∈ buildClusterHierarchy [sampleCluster], nd.id ≠ NodeId.root →
      1 ≤ nd.level ∧ parentCount (buildClusterHierarchy [sampleCluster]) nd.id = 1) :=
  buildClusterHierarchy_spec [sampleCluster] (by simp)

/-- C2 counterexample: with one cluster the hierarchy's root entry sits at
level 0 while a group node sits at level 1 — so the root is at the minimum
level, not the maximum, and levels do not run from 0 at the leaf clusters
toward the root as the claim states. -/
theorem hierarchy_root_not_max_level_counterexample :
    ((buildClusterHierarchy [sampleCluster]).getD 0 default).id = NodeId.root ∧
    ((buildClusterHierarchy [sampleCluster]).getD 0 default).level = 0 ∧
    ((buildClusterHierarchy [sampleCluster]).getD 1 default).level = 1 ∧
    (buildClusterHierarchy [sampleCluster]).length = 2 := by
  have h := buildLevels_eq_fuel (groupSimilarClustersOnce [sampleCluster])
  simp only [buildClusterHierarchy, groupSimilarClusters, h]
  decide

theorem applyTopicAssignment_keywords (l cid : Nat) (clab : String) :
    ∀ (kws : List KeywordRecord) (labs : List Nat),
      (applyTopicAssignment kws labs l cid clab).map (fun kw => kw.keyword) =
        kws.map (fun kw => kw.keyword) := by
  intro kws
  induction kws with
  | nil => intro labs; cases labs <;> rfl
  | cons kw rest ih =>
    intro labs
    cases labs with
    | nil => rfl
    | cons lab labs =>
      by_cases h : lab = l <;>
        simp [applyTopicAssignment, h, ih labs]

theorem membersWithLabelNat_sub (kws : List KeywordRecord) (labels : List Nat)
    (l : Nat) : membersWithLabelNat kws labels l ⊆ kws := by
  intro x hx
  unfold membersWithLabelNat at hx
  rw [List.mem_map] at hx
  obtain ⟨p, hp, hpe⟩ := hx
  have hzip := List.mem_of_mem_filter hp
  have := (List.of_mem_zip hzip).1
  rw [← hpe]
  exact this

theorem createTopicClustersGo_keyword_inv (labels : List Nat)
    (dists : List (List ℚ)) (tw : Nat → List String) (ids : Nat → Nat)
    (uniq : List Nat) :
    ∀ (i : Nat) (kws : List KeywordRecord),
      ((createTopicClustersGo labels dists tw ids uniq i kws).2).map
          (fun kw => kw.keyword) =
        kws.map (fun kw => kw.keyword) := by
  induction uniq with
  | nil => intro i kws; rfl
  | cons l ls ih =>
    intro i kws
    have hstep : (createTopicClustersGo labels dists tw ids (l :: ls) i kws).2 =
        (createTopicClustersGo labels dists tw ids ls (i + 1)
          (applyTopicAssignment kws labels l (ids i)
            (topicLabelString l (tw l)))).2 := by
      simp only [createTopicClustersGo]
    rw [hstep, ih (i + 1), applyTopicAssignment_keywords]

theorem createTopicClustersGo_clusters (labels : List Nat)
    (dists : List (List ℚ)) (tw : Nat → List String) (ids : Nat → Nat)
    (uniq : List Nat) :
    ∀ (i : Nat) (kws : List KeywordRecord),
      ((createTopicClustersGo labels dists tw ids uniq i kws).1).length =
        uniq.length ∧
      ∀ cl ∈ (createTopicClustersGo labels dists tw ids uniq i kws).1,
        cl.keywords ⊆ kws.map (fun kw => kw.keyword) := by
  induction uniq with
  | nil =>
    intro i kws
    exact ⟨rfl, by intro cl hcl; exact absurd hcl (by simp [createTopicClustersGo])⟩
  | cons l ls ih =>
    intro i kws
    have hfst : (createTopicClustersGo labels dists tw ids (l :: ls) i kws).1 =
        { id := ids i, label := topicLabelString l (tw l),
          keywords := (membersWithLabelNat kws labels l).map (fun kw => kw.keyword),
          keywordData := (membersWithLabelNat kws labels l).map (fun kw =>
            { kw with clusterId := some (ids i),
                      clusterLabel := some (topicLabelString l (tw l)),
                      topicId := some l }),
          centroid := [],
          size := (membersWithLabelNat kws labels l).length,
          topicId := some l, topicWords := tw l,
          topicDistribution := vecMean (distsWithLabel dists labels l) } ::
          (createTopicClustersGo labels dists tw ids ls (i + 1)
            (applyTopicAssignment kws labels l (ids i)
              (topicLabelString l (tw l)))).1 := by
      simp only [createTopicClustersGo]
    obtain ⟨ihlen, ihsub⟩ := ih (i + 1)
      (applyTopicAssignment kws labels l (ids i) (topicLabelString l (tw l)))
    constructor
    · rw [hfst, List.length_cons, ihlen, List.length_cons]
    · intro cl hcl
      rw [hfst, List.mem_cons] at hcl
      rcases hcl with hcl | hcl
      · subst hcl
        exact List.map_subset _ (membersWithLabelNat_sub kws labels l)
      · have := ihsub cl hcl
        rwa [applyTopicAssignment_keywords] at this

theorem sortedDedupNat_length_perm (l : List Nat) :
    (sortedDedupNat l).length = l.dedup.length :=
  (List.perm_insertionSort _ l.dedup).length_eq

theorem sortedDedupNat_length_le {l : List Nat} {n : Nat}
    (h : ∀ x ∈ l, x < n) : (sortedDedupNat l).length ≤ n := by
  rw [sortedDedupNat_length_perm]
  have hsub : l.dedup ⊆ List.range n := by
    intro x hx
    rw [List.mem_range]
    exact h x (List.mem_dedup.mp hx)
  have := (List.subperm_of_subset (List.nodup_dedup l) hsub).length_le
  simpa using this

theorem sortedDedupNat_pos {l : List Nat} (h : l ≠ []) :
    1 ≤ (sortedDedupNat l).length := by
  rw [sortedDedupNat_length_perm]
  match l, h with
  | x :: rest, _ =>
    have : x ∈ (x :: rest).dedup := List.mem_dedup.mpr (List.mem_cons_self x rest)
    have hne : (x :: rest).dedup ≠ [] := List.ne_nil_of_mem this
    have := List.length_pos.mpr hne
    omega

theorem argmax_labels_bound {dists : List (List ℚ)} {nT : Nat}
    (hrows : ∀ row ∈ dists, row.length = nT) (hnT : 1 ≤ nT) :
    ∀ x ∈ dists.map argmaxIdx, x < nT := by
  intro x hx
  rw [List.mem_map] at hx
  obtain ⟨row, hrow, rfl⟩ := hx
  have hlen := hrows row hrow
  have hne : row ≠ [] := by
    intro hc
    subst hc
    simp at hlen
    omega
  have := argmaxIdx_lt_length hne
  omega

/-- C4 (amended): clusters of at most 5 members pass through the hybrid
refiner unchanged; a cluster of more than 5 members gets the Topic Modeler
run on its member texts with `n_topics = min(3, size // 2)` and comes back
with its fields intact plus a `sub_topics` list (entries
`{id, label, keywords, topic_words}`) holding one entry per distinct
dominant topic — at least 1 and at most `n_topics` of them (exactly
`n_topics` only when every topic is some member's argmax) — each a subset of
the member texts. -/
theorem hybridRefineStep_spec (kws : List KeywordRecord) (c : ClusterObj)
    (decomp : List String → Nat → Except String (List (List ℚ)))
    (topWords : Nat → List String) (newIds : Nat → Nat)
    (mergeFails : ClusterObj → Bool) (dists : List (List ℚ))
    (hmf : mergeFails c = false) :
    ((kws.filter (fun kw => kw.clusterId = some c.id)).length ≤ 5 →
      hybridRefineStep kws c decomp topWords newIds mergeFails =
        Except.ok (c, kws)) ∧
    (5 < (kws.filter (fun kw => kw.clusterId = some c.id)).length →
      decomp ((kws.filter (fun kw => kw.clusterId = some c.id)).map
          (fun kw => kw.keyword))
          (min 3 ((kws.filter (fun kw => kw.clusterId = some c.id)).length / 2)) =
        Except.ok dists →
      dists.length = (kws.filter (fun kw => kw.clusterId = some c.id)).length →
      (∀ row ∈ dists,
        row.length =
          min 3 ((kws.filter (fun kw => kw.clusterId = some c.id)).length / 2)) →
      ∃ rc kws',
        hybridRefineStep kws c decomp topWords newIds mergeFails =
          Except.ok (rc, kws') ∧
        rc.id = c.id ∧ rc.label = c.label ∧ rc.keywords = c.keywords ∧
        rc.size = c.size ∧ rc.centroid = c.centroid ∧
        rc.subTopics =
          (topicModelingClustering
              (kws.filter (fun kw => kw.clusterId = some c.id)) dists topWords
              newIds).1.map
            (fun tc => { id := tc.id, label := tc.label, keywords := tc.keywords,
                         topicWords := tc.topicWords }) ∧
        1 ≤ rc.subTopics.length ∧
        rc.subTopics.length ≤
          min 3 ((kws.filter (fun kw => kw.clusterId = some c.id)).length / 2) ∧
        ∀ st ∈ rc.subTopics,
          st.keywords ⊆ (kws.filter (fun kw => kw.clusterId = some c.id)).map
            (fun kw => kw.keyword)) := by
  constructor
  · intro h
    unfold hybridRefineStep
    rw [if_neg (by omega)]
  · intro h5 hdec hdlen hrows
    have hstep : hybridRefineStep kws c decomp topWords newIds mergeFails =
        Except.ok
          (refineClusterWithTopics c
            (topicModelingClustering
              (kws.filter (fun kw => kw.clusterId = some c.id)) dists topWords
              newIds).1 (mergeFails c),
           mergeMembers c.id kws
            (topicModelingClustering
              (kws.filter (fun kw => kw.clusterId = some c.id)) dists topWords
              newIds).2) := by
      unfold hybridRefineStep
      rw [if_pos h5, hdec]
    rw [hmf] at hstep
    unfold refineClusterWithTopics at hstep
    rw [if_neg (by simp)] at hstep
    refine ⟨_, _, hstep, rfl, rfl, rfl, rfl, rfl, rfl, ?_, ?_, ?_⟩
    · -- at least one sub-topic: the label list is nonempty
      have hlen := (createTopicClustersGo_clusters (dists.map argmaxIdx) dists
        topWords newIds (sortedDedupNat (dists.map argmaxIdx)) 0
        (kws.filter (fun kw => kw.clusterId = some c.id))).1
      have hne : dists.map argmaxIdx ≠ [] := by
        intro hc
        have hd : dists = [] := by simpa using hc
        rw [hd] at hdlen
        simp at hdlen
        omega
      have hpos := sortedDedupNat_pos hne
      simp only [List.length_map]
      rw [show (topicModelingClustering
          (kws.filter (fun kw => kw.clusterId = some c.id)) dists topWords
          newIds).1.length = (sortedDedupNat (dists.map argmaxIdx)).length from hlen]
      exact hpos
    · -- at most n_topics sub-topics
      have hlen := (createTopicClustersGo_clusters (dists.map argmaxIdx) dists
        topWords newIds (sortedDedupNat (dists.map argmaxIdx)) 0
        (kws.filter (fun kw => kw.clusterId = some c.id))).1
      have hnT : 1 ≤ min 3
          ((kws.filter (fun kw => kw.clusterId = some c.id)).length / 2) := by
        omega
      have hbound := sortedDedupNat_length_le (argmax_labels_bound hrows hnT)
      simp only [List.length_map]
      rw [show (topicModelingClustering
          (kws.filter (fun kw => kw.clusterId = some c.id)) dists topWords
          newIds).1.length = (sortedDedupNat (dists.map argmaxIdx)).length from hlen]
      exact hbound
    · intro st hst
      rw [List.mem_map] at hst
      obtain ⟨tc, htc, rfl⟩ := hst
      have hsub := (createTopicClustersGo_clusters (dists.map argmaxIdx) dists
        topWords newIds (sortedDedupNat (dists.map argmaxIdx)) 0
        (kws.filter (fun kw => kw.clusterId = some c.id))).2 tc htc
      exact hsub

/-- Witness for `hybridRefineStep_spec`: a cluster with no members passes
through unchanged. -/
theorem hybridRefineStep_spec_witness :
    hybridRefineStep [] sampleCluster (fun _ _ => Except.ok [])
      (fun _ => []) (fun i => i) (fun _ => false) =
      Except.ok (sampleCluster, []) :=
  (hybridRefineStep_spec [] sampleCluster (fun _ _ => Except.ok [])
    (fun _ => []) (fun i => i) (fun _ => false) [] rfl).1 (by decide)

/-- C4 counterexample: a 10-member cluster refined with
`n_topics = min(3, 5) = 3` yields only 1 sub-topic when every member's
dominant topic is topic 0 — not exactly 3 as the claim states. -/
theorem hybrid_subtopics_counterexample :
    (sampleHybridKeywords.filter
      (fun kw => kw.clusterId = some sampleHybridCluster.id)).length = 10 ∧
    (hybridRefineStep sampleHybridKeywords sampleHybridCluster
        (fun _ _ => Except.ok (List.replicate 10 [1, 0, 0]))
        (fun _ => ["w"]) (fun i => i) (fun _ => false)).toOption.map
      (fun p => p.1.subTopics.length) = some 1 := by
  constructor
  · decide
  · decide

/-- C5 (amended): only failures inside the attach step
(`_refine_cluster_with_topics`, whose own handler falls back to the
unrefined cluster) are recovered per cluster — when the decompositions all
succeed, the batch completes with one output per input cluster and every
cluster whose attach step failed passes through unchanged; but a failure of
the per-cluster topic-modeling/embedding call has no per-cluster handler and
aborts the whole batch. -/
theorem hybridClustering_failure_spec
    (decomp : List String → Nat → Except String (List (List ℚ)))
    (topWords : Nat → List String) (newIds : Nat → Nat)
    (mergeFails : ClusterObj → Bool) :
    (∀ (cs : List ClusterObj) (kws : List KeywordRecord),
      (∀ ts n, ∃ d, decomp ts n = Except.ok d) →
      ∃ res kwsF,
        hybridClustering decomp topWords newIds mergeFails cs kws =
          Except.ok (res, kwsF) ∧
        res.length = cs.length ∧
        ∀ i, i < cs.length → mergeFails (cs.getD i default) = true →
          res.getD i default = cs.getD i default) ∧
    (∀ (c : ClusterObj) (cs : List ClusterObj) (kws : List KeywordRecord)
      (e : String),
      5 < (kws.filter (fun kw => kw.clusterId = some c.id)).length →
      decomp ((kws.filter (fun kw => kw.clusterId = some c.id)).map
          (fun kw => kw.keyword))
          (min 3 ((kws.filter (fun kw => kw.clusterId = some c.id)).length / 2)) =
        Except.error e →
      hybridClustering decomp topWords newIds mergeFails (c :: cs) kws =
        Except.error e) := by
  constructor
  · intro cs
    induction cs with
    | nil =>
      intro kws _
      exact ⟨[], kws, rfl, rfl, by intro i hi; simp at hi⟩
    | cons c cs ih =>
      intro kws hok
      have hstep : ∃ p, hybridRefineStep kws c decomp topWords newIds mergeFails =
          Except.ok p ∧ (mergeFails c = true → p.1 = c) := by
        unfold hybridRefineStep
        by_cases h5 : 5 < (kws.filter (fun kw => kw.clusterId = some c.id)).length
        · rw [if_pos h5]
          obtain ⟨d, hd⟩ := hok
            ((kws.filter (fun kw => kw.clusterId = some c.id)).map
              (fun kw => kw.keyword))
            (min 3 ((kws.filter (fun kw => kw.clusterId = some c.id)).length / 2))
          rw [hd]
          refine ⟨_, rfl, ?_⟩
          intro hmf
          unfold refineClusterWithTopics
          rw [hmf]
          rfl
        · rw [if_neg h5]
          exact ⟨(c, kws), rfl, fun _ => rfl⟩
      obtain ⟨p, hp, hpc⟩ := hstep
      obtain ⟨res, kwsF, hrec, hlen, hidx⟩ := ih p.2 hok
      refine ⟨p.1 :: res, kwsF, ?_, ?_, ?_⟩
      · simp only [hybridClustering, hp, hrec]
      · simp [hlen]
      · intro i hi hmf
        cases i with
        | zero =>
          simp only [List.getD_cons_zero] at hmf ⊢
          exact hpc hmf
        | succ n =>
          simp only [List.getD_cons_succ] at hmf ⊢
          exact hidx n (by simpa using hi) hmf
  · intro c cs kws e h5 herr
    unfold hybridClustering hybridRefineStep
    rw [if_pos h5, herr]

/-- Witness for `hybridClustering_failure_spec`: a failing decomposition on a
6-member cluster aborts the batch with that error. -/
theorem hybridClustering_failure_spec_witness :
    hybridClustering (fun _ _ => Except.error "numerical") (fun _ => [])
      (fun i => i) (fun _ => false) [sampleHybridCluster] sampleHybridKeywords =
      Except.error "numerical" :=
  (hybridClustering_failure_spec (fun _ _ => Except.error "numerical")
    (fun _ => []) (fun i => i) (fun _ => false)).2 sampleHybridCluster []
    sampleHybridKeywords "numerical" (by decide) rfl

/-- C5 counterexample: when the topic-modeling call for the first
(sufficiently large) cluster fails, the whole batch aborts with that error —
the sibling cluster 2 (whose decomposition would succeed) is never refined,
contradicting the claim that one cluster's refinement failure never aborts
the batch. -/
theorem hybrid_refinement_abort_counterexample :
    hybridClustering abortDecomp (fun _ => ["w"]) (fun i => i) (fun _ => false)
      [abortClusterA, abortClusterB] abortKeywords = Except.error "numerical" ∧
    abortDecomp ((abortKeywords.filter
        (fun kw => kw.clusterId = some abortClusterB.id)).map
      (fun kw => kw.keyword)) 3 =
      Except.ok (List.replicate 6 [1, 0, 0]) := by
  constructor
  · rfl
  · rfl

/-- C9: the empty keyword batch yields exactly
`{clusters: [], metadata: {total_clusters: 0, avg_cluster_size: 0,
silhouette_score: 0}}`, with no error. -/
theorem clusterKeywords_empty_batch
    (embed : List String → Except String (List (List ℚ)))
    (hdb : List (List ℚ) → Except String (List Int))
    (sil : List (List ℚ) → List Int → Except String ℚ) (newIds : Nat → Nat) :
    clusterKeywords embed hdb sil newIds [] =
      { clusters := [],
        metadata := { totalClusters := 0, avgClusterSize := 0,
                      silhouetteScore := 0 } } ∧
    clusterKeywordsRun embed hdb sil newIds [] = Except.ok emptyClusterResult :=
  ⟨rfl, rfl⟩

/-- C10: `cluster_keywords` never propagates an exception — whenever the
`try` body raises (any internal stage failing), the handler returns the
empty result; and in every case the output is either the empty result or
the body's successful result. -/
theorem clusterKeywords_never_raises
    (embed : List String → Except String (List (List ℚ)))
    (hdb : List (List ℚ) → Except String (List Int))
    (sil : List (List ℚ) → List Int → Except String ℚ) (newIds : Nat → Nat)
    (keywords : List KeywordRecord) :
    (∀ e, clusterKeywordsRun embed hdb sil newIds keywords = Except.error e →
      clusterKeywords embed hdb sil newIds keywords = emptyClusterResult) ∧
    (clusterKeywords embed hdb sil newIds keywords = emptyClusterResult ∨
      ∃ r, clusterKeywordsRun embed hdb sil newIds keywords = Except.ok r ∧
        clusterKeywords embed hdb sil newIds keywords = r) := by
  constructor
  · intro e he
    unfold clusterKeywords
    rw [he]
  · cases hr : clusterKeywordsRun embed hdb sil newIds keywords with
    | error e =>
      left
      unfold clusterKeywords
      rw [hr]
    | ok r =>
      right
      exact ⟨r, rfl, by unfold clusterKeywords; rw [hr]⟩

/-- Witness for `clusterKeywords_never_raises`: a failing HDBSCAN stage on a
one-keyword batch yields the empty result instead of an error. -/
theorem clusterKeywords_never_raises_witness :
    clusterKeywords (fun _ => Except.ok [[1]])
      (fun _ => Except.error "hdbscan failed") (fun _ _ => Except.ok 0)
      (fun i => i) [{ keyword := "seo" }] = emptyClusterResult :=
  (clusterKeywords_never_raises (fun _ => Except.ok [[1]])
    (fun _ => Except.error "hdbscan failed") (fun _ _ => Except.ok 0)
    (fun i => i) [{ keyword := "seo" }]).1 "hdbscan failed" rfl

end SeoClustering
